import Mathlib

/-!
Shallow embedding of the municipality-wiki-crawler (src/index.ts).

The crawler's observable behaviour is modelled as pure functions:
network and AI calls become function parameters (oracles), the
filesystem becomes a `String → Bool` existence predicate for the
stylizer's idempotence check and an explicit event trace for the
orchestrator's writes and sleeps, and JavaScript truthiness on strings
is modelled explicitly (the empty string is falsy).
-/

/-- Mirrors the `Municipality` interface of src/index.ts.  Optional
object keys become `Option` fields. -/
structure Municipality where
  name : String
  bfsId : String
  url : String
  image : Option String
  flag : Option String
  stylizedImage : Option String
  geography : Option String
  appearance : Option String
  pointsOfInterest : Option (List String)
deriving DecidableEq

def BATCH_SIZE : Nat := 5

def WIKIPEDIA_BASE_URL : String := "https://de.wikipedia.org"

/-- JavaScript truthiness of a nullable string: `null`/`undefined` and
the empty string are falsy, every other string is truthy. -/
def truthyStr : Option String → Bool
  | none => false
  | some s => !(s == "")

/-- Mirrors `name.replace(/[^a-zA-Z0-9]/g, "_")`, working on the
character list so that it evaluates by kernel reduction. -/
def sanitizeName (name : String) : String :=
  ⟨name.data.map (fun c => if c.isAlphanum then c else '_')⟩

/-- PNG output path checked and produced by `generateStylizedImage`. -/
def pngPath (name : String) : String :=
  "output/images/" ++ sanitizeName name ++ "_stylized.png"

/-- JPEG output path checked by `generateStylizedImage`. -/
def jpgPath (name : String) : String :=
  "output/images/" ++ sanitizeName name ++ "_stylized.jpg"

/-- Helper for substring search: does the list start with the pattern? -/
def charsStartWith : List Char → List Char → Bool
  | _, [] => true
  | [], _ :: _ => false
  | c :: cs, d :: ds => c == d && charsStartWith cs ds

/-- Helper for substring search: does the pattern occur anywhere? -/
def charsContain : List Char → List Char → Bool
  | [], needle => charsStartWith [] needle
  | c :: cs, needle => charsStartWith (c :: cs) needle || charsContain cs needle

/-- Mirrors JavaScript `s.includes(sub)`. -/
def containsSubstr (s sub : String) : Bool :=
  charsContain s.data sub.data

/-- Mirrors JavaScript `s.startsWith(pre)` (char-list level, so that it
evaluates by kernel reduction). -/
def strStartsWith (s pre : String) : Bool :=
  charsStartWith s.data pre.data

/-- Mirrors JavaScript `s.includes(c)` for a single character. -/
def strHasChar (s : String) (c : Char) : Bool :=
  s.data.contains c

/-- Mirrors JavaScript `s.trim()` (char-list level). -/
def strTrim (s : String) : String :=
  ⟨((s.data.dropWhile Char.isWhitespace).reverse.dropWhile
      Char.isWhitespace).reverse⟩

/-- The retry predicate of `generateStylizedImage` (src/index.ts lines
337-341): retry only if the error message contains one of three
substrings. -/
def isRetryable (msg : String) : Bool :=
  containsSubstr msg "500" || containsSubstr msg "INTERNAL" ||
    containsSubstr msg "RESOURCE_EXHAUSTED"

/-- Mirrors JavaScript `Array.prototype.join(sep)`. -/
def joinSep (sep : String) : List String → String
  | [] => ""
  | [x] => x
  | x :: y :: xs => x ++ sep ++ joinSep sep (y :: xs)

/-- The landmark clause of the stylizer prompt (src/index.ts lines
130-144), including the JavaScript truthiness test on the
points-of-interest array. -/
def landmarksDesc (pointsOfInterest : Option (List String)) : String :=
  match pointsOfInterest with
  | some pois =>
    if pois.length > 0 then
      if pois.length == 1 then
        "The scene prominently features " ++ pois.headD "" ++ "."
      else if pois.length == 2 then
        "The scene prominently features " ++ pois.headD "" ++ " and " ++
          pois.getD 1 "" ++ "."
      else
        "The scene prominently features " ++ joinSep ", " pois.dropLast ++
          ", and " ++ pois.getLastD "" ++ "."
    else
      "The scene features traditional Swiss architecture and buildings."
  | none => "The scene features traditional Swiss architecture and buildings."

/-- The argument object passed to `generateStylizedImage`. -/
structure StylizeInput where
  name : String
  geography : Option String
  pointsOfInterest : Option (List String)
  flagPath : Option String
  imagePath : Option String
deriving DecidableEq

/-- The image-generation prompt (src/index.ts lines 126-161). -/
def buildPrompt (m : StylizeInput) : String :=
  let geographyDesc :=
    if truthyStr m.geography then m.geography.getD "" else "rolling hills and forests"
  let landmarks := landmarksDesc m.pointsOfInterest
  let p1 := "A stylized 3D isometric diorama of the municipality " ++ m.name ++
    ", visualized as a cute miniature floating island on a square base."
  let p2 :=
    if truthyStr m.imagePath then
      p1 ++ " Use the reference photograph to capture the architectural style and landscape features of the real location."
    else p1
  let p3 := p2 ++ " The scene features " ++ geographyDesc ++ ". " ++ landmarks ++
    " Surround this with cluster of traditional Swiss houses, green trees, and winding roads."
  let p4 :=
    if truthyStr m.flagPath then
      p3 ++ " Include the municipality\x27s coat of arms flag (shown in the reference image) on a flagpole or displayed on one of the buildings."
    else p3
  p4 ++ " The style is low-poly, smooth, vibrant, and toy-like. The name \x27" ++
    m.name ++
    "\x27 is written in large, bold, dark-grey sans-serif text floating above the scene. Soft, bright lighting with a clean pastel background."

/-- One attempt of the AI image call: either the call throws with a
message, or it returns a response whose first candidate either has no
inline-image part (`ok none`) or has one with an optional declared mime
type (`ok (some mimeType)`). -/
inductive AttemptOutcome where
  | throws (msg : String)
  | ok (imagePart : Option (Option String))
deriving DecidableEq

/-- Observable effects of one `generateStylizedImage` invocation: the
returned path (or `none`), the number of AI-API calls issued, and the
backoff waits (in milliseconds) in order. -/
structure GenEffects where
  result : Option String
  apiCalls : Nat
  waits : List Nat
deriving DecidableEq

/-- The retry loop of `generateStylizedImage` (src/index.ts lines
170-365).  `attempt` is the 1-based loop counter; `fuel` is the number
of loop iterations still allowed (`maxRetries - attempt + 1`), so the
iteration with `fuel = 1` is the last attempt. -/
def genAttempts (name : String) (oracle : Nat → AttemptOutcome) :
    Nat → Nat → GenEffects
  | _, 0 => ⟨none, 0, []⟩
  | attempt, fuel + 1 =>
    match oracle attempt with
    | .ok none => ⟨none, 1, []⟩
    | .ok (some mt) =>
      let mimeType := mt.getD "image/png"
      let ext := if containsSubstr mimeType "jpeg" then "jpg" else "png"
      ⟨some ("output/images/" ++ sanitizeName name ++ "_stylized." ++ ext), 1, []⟩
    | .throws msg =>
      if isRetryable msg then
        match fuel with
        | 0 => ⟨none, 1, []⟩
        | f + 1 =>
          let rest := genAttempts name oracle (attempt + 1) (f + 1)
          ⟨rest.result, rest.apiCalls + 1, 2 ^ attempt * 1000 :: rest.waits⟩
      else ⟨none, 1, []⟩

/-- `generateStylizedImage` (src/index.ts lines 91-366): first the
idempotence check against the filesystem (`fsExists`), then the retry
loop around the AI image call (`oracle`). -/
def generateStylizedImage (fsExists : String → Bool)
    (oracle : Nat → AttemptOutcome) (m : StylizeInput) (maxRetries : Nat) :
    GenEffects :=
  if fsExists (pngPath m.name) then ⟨some (pngPath m.name), 0, []⟩
  else if fsExists (jpgPath m.name) then ⟨some (jpgPath m.name), 0, []⟩
  else genAttempts m.name oracle 1 maxRetries

/-- An `<a>` element: its optional `href` attribute and its text. -/
structure Anchor where
  href : Option String
  text : String
deriving DecidableEq

/-- A `<td>` cell of the index table, as its list of descendant anchors
in document order. -/
structure Cell where
  anchors : List Anchor
deriving DecidableEq

/-- A `<tr>` row of the index table, as its list of `<td>` cells in
document order. -/
structure Row where
  cells : List Cell
deriving DecidableEq

/-- Per-row extraction of `getMunicipalityLinks` (src/index.ts lines
378-394): the FIRST anchor of the FIRST cell is inspected, and a pair
is produced only when its href starts with "/wiki/" and contains no
colon. -/
def rowLink (r : Row) : Option (String × String) :=
  match r.cells.head? with
  | none => none
  | some cell =>
    match cell.anchors.head? with
    | none => none
    | some a =>
      match a.href with
      | none => none
      | some href =>
        if strStartsWith href "/wiki/" && !(strHasChar href ':') then
          some (strTrim a.text, WIKIPEDIA_BASE_URL ++ href)
        else none

/-- `getMunicipalityLinks` (src/index.ts lines 368-398) on the parsed
rows of the index page. -/
def getMunicipalityLinks (rows : List Row) : List (String × String) :=
  rows.filterMap rowLink

/-- The code's actual per-row criterion: the first anchor of the first
cell exists and qualifies. -/
def rowFirstAnchorQualifies (r : Row) : Bool :=
  match r.cells.head? with
  | none => false
  | some cell =>
    match cell.anchors.head? with
    | none => false
    | some a =>
      match a.href with
      | none => false
      | some href => strStartsWith href "/wiki/" && !(strHasChar href ':')

/-- Modelled from the spec wording of the claim, for comparison with
the code: a row qualifies when its first cell CONTAINS (anywhere) a
hyperlink whose href begins with the wiki-article prefix and has no
namespace colon. -/
def rowContainsArticleAnchor (r : Row) : Bool :=
  match r.cells.head? with
  | none => false
  | some cell =>
    cell.anchors.any (fun a =>
      match a.href with
      | some href => strStartsWith href "/wiki/" && !(strHasChar href ':')
      | none => false)

/-- The paragraph collection of `extractMunicipalityData` (src/index.ts
lines 421-431): iterate over all paragraphs with their index, keep the
trimmed text of those with index below 5 and trimmed length above 50. -/
def contentParagraphs (paragraphs : List String) : List String :=
  paragraphs.enum.filterMap (fun ie =>
    if ie.1 < 5 then
      let text := strTrim ie.2
      if text.length > 50 then some text else none
    else none)

/-- `articleContent` (src/index.ts line 432). -/
def articleContent (paragraphs : List String) : String :=
  String.intercalate "\n\n" (contentParagraphs paragraphs)

/-- Mirrors `responseText.match(/\x7b[\s\S]*\x7d/)` (src/index.ts line
514): the greedy match runs from the first opening brace to the last
closing brace, and exists exactly when some closing brace follows the
first opening brace. -/
def jsonMatch (s : String) : Option String :=
  match s.data.findIdx? (fun c => c == '\x7b'),
        s.data.reverse.findIdx? (fun c => c == '\x7d') with
  | some i, some jr =>
    let j := s.data.length - 1 - jr
    if i < j then some (String.mk ((s.data.drop i).take (j - i + 1))) else none
  | _, _ => none

/-- One part of an AI text response. -/
structure AiPart where
  text : Option String
deriving DecidableEq

/-- The content object of an AI candidate; `parts` may be absent. -/
structure AiContent where
  parts : Option (List AiPart)
deriving DecidableEq

/-- One candidate of an AI response; `content` may be absent. -/
structure AiCandidate where
  content : Option AiContent
deriving DecidableEq

/-- An AI text response; `candidates` may be absent. -/
structure AiResponse where
  candidates : Option (List AiCandidate)
deriving DecidableEq

/-- The JSON object the extraction prompt asks the model for.  Fields
that JSON can give as `null` (or omit) are `Option`. -/
structure ExtractedData where
  bfsId : Option String
  flagPageUrl : Option String
  imagePageUrl : Option String
  geography : Option String
  appearance : Option String
  pointsOfInterest : Option (List String)
deriving DecidableEq

/-- A fetched detail page, reduced to what the extractor reads:
the first `.infobox` element if present (with its inner HTML, which
cheerio's `.html()` may return as null), and the text of the `<p>`
elements under the article body in document order. -/
structure DetailPage where
  infobox : Option (Option String)
  paragraphs : List String
deriving DecidableEq

/-- The extraction prompt template (src/index.ts lines 441-479). -/
def extractPrompt (infoboxHtml articleContentStr : String) : String :=
  "Extract the following information from this Wikipedia page for a Swiss municipality:\n\n1. From the INFOBOX, extract:\n   - The BFS number (BFS-Nr., Gemeindenummer, or similar)\n   - The COAT OF ARMS/FLAG image:\n     * Look for images labeled \"Wappen\", \"Coat of arms\", \"Blason\"\n     * Look for filenames containing \"wappen\", \"blason\", \"coat\"\n     * Find the parent <a> tag of the img to get the Wikipedia File page link\n     * The link usually looks like /wiki/File:... or /wiki/Datei:...\n   - The best PHOTO/IMAGE (NOT coat of arms):\n     * CRITICAL: Look for images labeled \"Ansicht\", \"Luftbild\", \"Panorama\", or similar - these are photos\n     * CRITICAL: SKIP images labeled \"Wappen\", \"Coat of arms\", \"Blason\" - these are NOT photos\n     * CRITICAL: SKIP images with filenames containing \"wappen\", \"blason\", \"coat\" - these are NOT photos\n     * PREFER: Actual photographs showing landscapes, buildings, town views, streets, architecture\n     * AVOID: Coats of arms (Wappen), flags, maps, location diagrams, symbolic images\n     * Find the parent <a> tag of the img to get the Wikipedia File page link (not the thumbnail src)\n     * The link usually looks like /wiki/File:... or /wiki/Datei:...\n     * Return NULL if only coat of arms/Wappen images are available\n\n2. From the ARTICLE CONTENT, extract:\n   - Geography: Brief description of the municipality\x27s location and geographical features (mountains, rivers, valleys, altitude, etc.) - max 100 words\n   - Appearance: Brief description of how the town looks (architecture, urban/rural character, notable buildings, atmosphere) - max 100 words\n   - Points of Interest: Array of notable landmarks, attractions, or places (churches, castles, museums, natural sites, etc.) - list of strings\n\nReturn the data in JSON format:\n\x7b\n  \"bfsId\": \"the BFS number as a string\",\n  \"flagPageUrl\": \"the Wikipedia File/Datei page URL for coat of arms/flag or null\",\n  \"imagePageUrl\": \"the Wikipedia File/Datei page URL or null if no actual photo found\",\n  \"geography\": \"brief geography description or null\",\n  \"appearance\": \"brief appearance description or null\",\n  \"pointsOfInterest\": [\"landmark1\", \"landmark2\"] or null\n\x7d\n\nINFOBOX HTML:\n" ++ infoboxHtml ++ "\n\nARTICLE CONTENT:\n" ++ articleContentStr

/-- The record assembly of `extractMunicipalityData` (src/index.ts
lines 534-546), with JavaScript truthiness for the conditional object
spreads. -/
def assembleMunicipality (name url : String) (data : ExtractedData)
    (imageUrl flagUrl : Option String) : Municipality :=
  { name := name
    bfsId := if truthyStr data.bfsId then data.bfsId.getD "" else ""
    url := url
    image := if truthyStr imageUrl then imageUrl else none
    flag := if truthyStr flagUrl then flagUrl else none
    stylizedImage := none
    geography := if truthyStr data.geography then data.geography else none
    appearance := if truthyStr data.appearance then data.appearance else none
    pointsOfInterest :=
      match data.pointsOfInterest with
      | some l => if l.length > 0 then some l else none
      | none => none }

/-- The body of the `try` block of `extractMunicipalityData`
(src/index.ts lines 404-570).  Every awaited operation that can throw
is an `Except` parameter; `getHighRes` and the stylizer never throw in
the source (they catch internally), so they are total. -/
def extractInner (fetch : Except String DetailPage)
    (ai : String → Except String AiResponse)
    (parseJson : String → Except String ExtractedData)
    (getHighRes : String → Option String)
    (fsExists : String → Bool) (imgOracle : Nat → AttemptOutcome)
    (url name : String) : Except String (Option Municipality) :=
  match fetch with
  | .error e => .error e
  | .ok page =>
    match page.infobox with
    | none => .ok none
    | some infoboxHtmlOpt =>
      let infoboxHtml := infoboxHtmlOpt.getD ""
      let content := articleContent page.paragraphs
      match ai (extractPrompt infoboxHtml content) with
      | .error e => .error e
      | .ok result =>
        match result.candidates with
        | none => .ok none
        | some cands =>
          match cands with
          | [] => .ok none
          | cand0 :: _ =>
            match cand0.content with
            | none => .ok none
            | some c =>
              match c.parts with
              | none => .ok none
              | some parts =>
                match parts with
                | [] => .ok none
                | _ :: _ =>
                  let textPart := parts.find? (fun p => truthyStr p.text)
                  let responseText :=
                    match textPart with
                    | some p => p.text.getD ""
                    | none => ""
                  match jsonMatch responseText with
                  | none => .ok none
                  | some jm =>
                    match parseJson jm with
                    | .error e => .error e
                    | .ok data =>
                      let imageUrl :=
                        if truthyStr data.imagePageUrl then
                          getHighRes (data.imagePageUrl.getD "")
                        else none
                      let flagUrl :=
                        if truthyStr data.flagPageUrl then
                          getHighRes (data.flagPageUrl.getD "")
                        else none
                      let m := assembleMunicipality name url data imageUrl flagUrl
                      let stylized :=
                        (generateStylizedImage fsExists imgOracle
                          ⟨name, data.geography, data.pointsOfInterest,
                            flagUrl, imageUrl⟩ 3).result
                      let m2 :=
                        if truthyStr stylized then
                          { m with stylizedImage := stylized }
                        else m
                      .ok (some m2)

/-- `extractMunicipalityData` (src/index.ts lines 400-575): the outer
`catch` converts every thrown error into a null record. -/
def extractMunicipalityData (fetch : Except String DetailPage)
    (ai : String → Except String AiResponse)
    (parseJson : String → Except String ExtractedData)
    (getHighRes : String → Option String)
    (fsExists : String → Bool) (imgOracle : Nat → AttemptOutcome)
    (url name : String) : Option Municipality :=
  match extractInner fetch ai parseJson getHighRes fsExists imgOracle url name with
  | .error _ => none
  | .ok r => r

/-- Observable events of the orchestrator's batch loop: issuing a
batch, fully rewriting the output file with a snapshot, sleeping. -/
inductive CrawlEvent where
  | batch (entries : List (String × String))
  | write (snapshot : List Municipality)
  | sleep (ms : Nat)
deriving DecidableEq

/-- Projection to batch events. -/
def CrawlEvent.batchOf : CrawlEvent → Option (List (String × String))
  | .batch b => some b
  | _ => none

/-- Projection to write events. -/
def CrawlEvent.writeOf : CrawlEvent → Option (List Municipality)
  | .write s => some s
  | _ => none

/-- Is this a write event? -/
def CrawlEvent.isWrite : CrawlEvent → Bool
  | .write _ => true
  | _ => false

/-- Is this a sleep event? -/
def CrawlEvent.isSleep : CrawlEvent → Bool
  | .sleep _ => true
  | _ => false

/-- Loading the prior output file (src/index.ts lines 590-597): a
failed read or parse (`none`) yields the empty prior list. -/
def loadPrior (readResult : Option (List Municipality)) : List Municipality :=
  readResult.getD []

/-- The resume filter (src/index.ts lines 599-605): keep the discovered
pairs whose name is not among the prior results' names. -/
def pendingLinks (prior : List Municipality)
    (discovered : List (String × String)) : List (String × String) :=
  let processedNames := prior.map Municipality.name
  discovered.filter (fun p => !(processedNames.contains p.1))

/-- The batch loop of `crawlMunicipalities` (src/index.ts lines
613-638), with an explicit fuel argument (one unit per chunk is enough,
but `fuel = pending.length` keeps it structural).  Each iteration takes
a slice of `BATCH_SIZE`, maps the extractor over it, appends the
non-null results in batch order, emits a write of the accumulated list,
and emits a 1000 ms sleep unless the remainder is empty. -/
def crawlLoopFuel (extract : String × String → Option Municipality) :
    Nat → List Municipality → List (String × String) →
      List Municipality × List CrawlEvent
  | _, acc, [] => (acc, [])
  | 0, acc, _ :: _ => (acc, [])
  | fuel + 1, acc, p :: rest' =>
    let pending := p :: rest'
    let chunk := pending.take BATCH_SIZE
    let rest := pending.drop BATCH_SIZE
    let acc2 := acc ++ (chunk.map extract).filterMap id
    let next := crawlLoopFuel extract fuel acc2 rest
    (next.1,
      CrawlEvent.batch chunk :: CrawlEvent.write acc2 ::
        (if rest.isEmpty then next.2 else CrawlEvent.sleep 1000 :: next.2))

/-- The batch loop at its natural fuel. -/
def crawlLoop (extract : String × String → Option Municipality)
    (acc : List Municipality) (pending : List (String × String)) :
    List Municipality × List CrawlEvent :=
  crawlLoopFuel extract pending.length acc pending

/-- `crawlMunicipalities` (src/index.ts lines 577-644) after link
discovery: load prior results, filter, run the batch loop. -/
def crawlMunicipalities (extract : String × String → Option Municipality)
    (priorRead : Option (List Municipality))
    (discovered : List (String × String)) :
    List Municipality × List CrawlEvent :=
  let municipalities := loadPrior priorRead
  let pending := pendingLinks municipalities discovered
  crawlLoop extract municipalities pending

/-- Fixed-size chunking, fuelled like `crawlLoopFuel`. -/
def chunksOfFuel (n : Nat) : Nat → List α → List (List α)
  | _, [] => []
  | 0, _ :: _ => []
  | fuel + 1, p :: rest' => (p :: rest').take n :: chunksOfFuel n fuel ((p :: rest').drop n)

/-- Partition of a list into successive chunks of size `n` (the last
chunk may be shorter). -/
def chunksOf (n : Nat) (l : List α) : List (List α) :=
  chunksOfFuel n l.length l

/-! ### Helper lemmas -/

theorem filterMap_eq_map_filter {α β : Type} (f : α → Option β) (d : β)
    (l : List α) :
    l.filterMap f
      = (l.filter (fun x => (f x).isSome)).map (fun x => (f x).getD d) := by
  induction l with
  | nil => rfl
  | cons a l ih => cases h : f a <;> simp [List.filterMap_cons, List.filter_cons, h, ih]

theorem rowLink_isSome (r : Row) :
    (rowLink r).isSome = rowFirstAnchorQualifies r := by
  obtain ⟨_ | ⟨⟨_ | ⟨a, as⟩⟩, cs⟩⟩ := r
  · rfl
  · rfl
  · obtain ⟨_ | href, t⟩ := a
    · rfl
    · unfold rowLink rowFirstAnchorQualifies
      dsimp only [List.head?_cons]
      split <;> simp_all

theorem contentParagraphs_enumFrom (l : List String) : ∀ n,
    (List.enumFrom n l).filterMap (fun ie =>
      if ie.1 < 5 then
        let text := strTrim ie.2
        if text.length > 50 then some text else none
      else none)
    = ((l.take (5 - n)).map strTrim).filter (fun t => t.length > 50) := by
  induction l with
  | nil => intro n; simp
  | cons a l ih =>
    intro n
    rw [List.enumFrom_cons, List.filterMap_cons]
    by_cases h : n < 5
    · have h5 : 5 - n = (5 - (n + 1)) + 1 := by omega
      rw [h5, List.take_succ_cons, List.map_cons, List.filter_cons, ih (n + 1)]
      by_cases hlen : (strTrim a).length > 50
      · simp [h, hlen]
      · simp [h, hlen]
    · have h5 : 5 - n = 0 := by omega
      have h5' : 5 - (n + 1) = 0 := by omega
      rw [h5]
      simp only [h, if_false, ih (n + 1), h5', List.take_zero, List.map_nil,
        List.filter_nil]

theorem contentParagraphs_eq (l : List String) :
    contentParagraphs l
      = ((l.take 5).map strTrim).filter (fun t => t.length > 50) := by
  unfold contentParagraphs
  rw [show l.enum = List.enumFrom 0 l from rfl, contentParagraphs_enumFrom l 0]

/-! ### Claim theorems -/

/-- C7: the landmark clause of the Image Stylizer's prompt follows the
fixed English list-grammar templates: the default phrase for an absent
or empty points-of-interest list, "features X." for one item,
"X and Y." for two items, and "X, Y, and Z." with an Oxford comma for
three or more items. -/
theorem landmark_clause_grammar :
    (landmarksDesc none
        = "The scene features traditional Swiss architecture and buildings."
      ∧ landmarksDesc (some [])
          = "The scene features traditional Swiss architecture and buildings.")
    ∧ (∀ x : String, landmarksDesc (some [x])
        = "The scene prominently features " ++ x ++ ".")
    ∧ (∀ x y : String, landmarksDesc (some [x, y])
        = "The scene prominently features " ++ x ++ " and " ++ y ++ ".")
    ∧ (∀ x y z : String, landmarksDesc (some [x, y, z])
        = "The scene prominently features " ++ x ++ ", " ++ y ++ ", and " ++ z ++ ".")
    ∧ (∀ x y z w : String, landmarksDesc (some [x, y, z, w])
        = "The scene prominently features " ++ x ++ ", " ++ y ++ ", " ++ z ++
            ", and " ++ w ++ ".") := by
  refine ⟨⟨rfl, rfl⟩, fun x => rfl, fun x y => rfl, fun x y z => ?_,
    fun x y z w => ?_⟩ <;>
    simp [landmarksDesc, joinSep, String.append_assoc, List.dropLast]

/-- C3: the orchestrator treats a failed read or parse of the prior
output file as an empty prior result set, and the pending list is
exactly the discovered pairs whose name is not among the prior results'
names; in particular for prior names A, B and discovered names A, B, C
the pending list is exactly the C entry. -/
theorem resume_filtering :
    (loadPrior none = [])
    ∧ (∀ (prior : List Municipality) (discovered : List (String × String))
        (p : String × String),
        p ∈ pendingLinks prior discovered ↔
          p ∈ discovered ∧ p.1 ∉ prior.map Municipality.name)
    ∧ pendingLinks
        [⟨"A", "1", "uA", none, none, none, none, none, none⟩,
         ⟨"B", "2", "uB", none, none, none, none, none, none⟩]
        [("A", "u1"), ("B", "u2"), ("C", "u3")] = [("C", "u3")] := by
  refine ⟨rfl, ?_, by decide⟩
  intro prior discovered p
  simp [pendingLinks, List.mem_filter, List.elem_iff]

/-- C8: the article content assembled by the Detail Extractor is the
blank-line-separated join of the trimmed texts of those of the first 5
paragraph elements whose trimmed length exceeds 50 characters. -/
theorem article_content_first_five (paragraphs : List String) :
    articleContent paragraphs
      = String.intercalate "\n\n"
          (((paragraphs.take 5).map strTrim).filter
            (fun t => t.length > 50)) := by
  unfold articleContent
  rw [contentParagraphs_eq]

/-- C6 counterexample: the claim counts one pair for every row whose
first cell contains a qualifying hyperlink anywhere, but the code only
inspects the first hyperlink of the first cell; a row whose first
anchor is a namespace link and whose second anchor is a qualifying
article link yields no pair. -/
theorem list_parser_counterexample :
    ¬ ((getMunicipalityLinks
          [⟨[⟨[⟨some "/wiki/Diskussion:Bern", "Diskussion"⟩,
               ⟨some "/wiki/Bern", "Bern"⟩]⟩]⟩]).length
        = (([⟨[⟨[⟨some "/wiki/Diskussion:Bern", "Diskussion"⟩,
                 ⟨some "/wiki/Bern", "Bern"⟩]⟩]⟩] : List Row).filter
              rowContainsArticleAnchor).length) := by
  decide

/-- C6 amended: the List Parser returns one (name, url) pair per table
row whose FIRST hyperlink of the first cell has an href beginning with
the wiki-article prefix and containing no namespace colon (a qualifying
hyperlink appearing later in the cell yields nothing), in document
order and without deduplication, and returns an empty sequence when the
expected table structure is absent. -/
theorem list_parser_rows (rows : List Row) :
    getMunicipalityLinks rows
      = (rows.filter rowFirstAnchorQualifies).map
          (fun r => (rowLink r).getD ("", ""))
    ∧ (getMunicipalityLinks rows).length
        = (rows.filter rowFirstAnchorQualifies).length
    ∧ getMunicipalityLinks ([] : List Row) = [] := by
  have h1 : getMunicipalityLinks rows
      = (rows.filter rowFirstAnchorQualifies).map
          (fun r => (rowLink r).getD ("", "")) := by
    rw [getMunicipalityLinks, filterMap_eq_map_filter rowLink ("", "")]
    congr 1
    exact List.filter_congr (fun r _ => rowLink_isSome r)
  exact ⟨h1, by rw [h1, List.length_map], rfl⟩

/-- C2: the Image Stylizer's generation call with the default cap of 3
attempts: a retryable error (message containing "500", "INTERNAL" or
"RESOURCE_EXHAUSTED") is retried after waiting 2^k seconds before
attempt k+1 (2000 ms then 4000 ms), up to 3 attempts in total with null
after the third failure; a non-retryable error makes exactly 1 call and
returns null immediately; a retryable error thrown twice followed by a
success returns the success result after exactly 3 calls. -/
theorem stylizer_retry_policy (inp : StylizeInput) (fs : String → Bool)
    (msgR msgN : String)
    (hfs1 : fs (pngPath inp.name) = false)
    (hfs2 : fs (jpgPath inp.name) = false)
    (hR : isRetryable msgR = true) (hN : isRetryable msgN = false) :
    generateStylizedImage fs (fun _ => .throws msgR) inp 3
        = ⟨none, 3, [2000, 4000]⟩
    ∧ generateStylizedImage fs (fun _ => .throws msgN) inp 3 = ⟨none, 1, []⟩
    ∧ generateStylizedImage fs
        (fun a => if a ≤ 2 then .throws msgR else .ok (some none)) inp 3
        = ⟨some (pngPath inp.name), 3, [2000, 4000]⟩ := by
  have hskip : ∀ oracle : Nat → AttemptOutcome,
      generateStylizedImage fs oracle inp 3 = genAttempts inp.name oracle 1 3 := by
    intro oracle
    unfold generateStylizedImage
    rw [hfs1, hfs2]
    simp
  have hpng : ("_stylized." ++ "png" : String) = "_stylized.png" := rfl
  have hmime : containsSubstr "image/png" "jpeg" = false := by decide
  refine ⟨?_, ?_, ?_⟩ <;> rw [hskip] <;>
    simp [genAttempts, hR, hN, hmime, pngPath, String.append_assoc, hpng]

/-- Witness for C2 at a concrete retryable and non-retryable message. -/
theorem stylizer_retry_policy_witness :
    isRetryable "RESOURCE_EXHAUSTED error" = true
    ∧ isRetryable "INVALID_ARGUMENT" = false
    ∧ generateStylizedImage (fun _ => false)
        (fun _ => AttemptOutcome.throws "RESOURCE_EXHAUSTED error")
        ⟨"A", none, none, none, none⟩ 3 = ⟨none, 3, [2000, 4000]⟩ :=
  ⟨by decide, by decide,
    (stylizer_retry_policy ⟨"A", none, none, none, none⟩ (fun _ => false)
      "RESOURCE_EXHAUSTED error" "INVALID_ARGUMENT" rfl rfl (by decide)
      (by decide)).1⟩

/-- C4: when a stylized image already exists on disk under the derived
PNG or JPEG filename, `generateStylizedImage` returns that existing
path with zero AI-API calls (preferring the PNG), and the outcome does
not depend on the AI oracle, so a second invocation returns the same
path with zero calls. -/
theorem stylizer_idempotence (inp : StylizeInput) (fs : String → Bool)
    (o1 o2 : Nat → AttemptOutcome) (k : Nat)
    (h : fs (pngPath inp.name) = true ∨ fs (jpgPath inp.name) = true) :
    (generateStylizedImage fs o1 inp k).apiCalls = 0
    ∧ (fs (pngPath inp.name) = true →
        generateStylizedImage fs o1 inp k = ⟨some (pngPath inp.name), 0, []⟩)
    ∧ (fs (pngPath inp.name) = false →
        generateStylizedImage fs o1 inp k = ⟨some (jpgPath inp.name), 0, []⟩)
    ∧ generateStylizedImage fs o1 inp k = generateStylizedImage fs o2 inp k := by
  cases hp : fs (pngPath inp.name) with
  | true => refine ⟨?_, ?_, ?_, ?_⟩ <;> simp [generateStylizedImage, hp]
  | false =>
    have hj : fs (jpgPath inp.name) = true := by
      rcases h with h | h
      · rw [hp] at h; exact absurd h (by simp)
      · exact h
    refine ⟨?_, ?_, ?_, ?_⟩ <;> simp [generateStylizedImage, hp, hj]

/-- Witness for C4 at a concrete name and filesystem. -/
theorem stylizer_idempotence_witness :
    ((fun s => s == pngPath "A") (pngPath "A") = true
      ∨ (fun s => s == pngPath "A") (jpgPath "A") = true)
    ∧ (generateStylizedImage (fun s => s == pngPath "A")
        (fun _ => AttemptOutcome.throws "X")
        ⟨"A", none, none, none, none⟩ 3).apiCalls = 0 :=
  ⟨Or.inl (by decide),
    (stylizer_idempotence ⟨"A", none, none, none, none⟩
      (fun s => s == pngPath "A") (fun _ => AttemptOutcome.throws "X")
      (fun _ => AttemptOutcome.throws "X") 3 (Or.inl (by decide))).1⟩

theorem isSome_if_truthy (o : Option String) :
    (if truthyStr o then o else none).isSome = truthyStr o := by
  cases o with
  | none => simp [truthyStr]
  | some s => cases h : (s == "") <;> simp [truthyStr, h]

/-- C10: in every assembled record the fields name, bfsId and url are
present (bfsId defaulting to the empty string when the model supplies
none or an empty string), each optional field is present exactly when
its extracted value is truthy, and a present pointsOfInterest is a
non-empty array — a null or empty array, or an empty-string geography
or appearance, leaves the field absent. -/
theorem record_field_presence (name url : String) (data : ExtractedData)
    (imageUrl flagUrl : Option String) :
    (assembleMunicipality name url data imageUrl flagUrl).name = name
    ∧ (assembleMunicipality name url data imageUrl flagUrl).url = url
    ∧ (data.bfsId = none →
        (assembleMunicipality name url data imageUrl flagUrl).bfsId = "")
    ∧ (∀ s, data.bfsId = some s → s ≠ "" →
        (assembleMunicipality name url data imageUrl flagUrl).bfsId = s)
    ∧ (assembleMunicipality name url data imageUrl flagUrl).image.isSome
        = truthyStr imageUrl
    ∧ (assembleMunicipality name url data imageUrl flagUrl).flag.isSome
        = truthyStr flagUrl
    ∧ (assembleMunicipality name url data imageUrl flagUrl).geography.isSome
        = truthyStr data.geography
    ∧ (assembleMunicipality name url data imageUrl flagUrl).appearance.isSome
        = truthyStr data.appearance
    ∧ (∀ l, (assembleMunicipality name url data imageUrl flagUrl).pointsOfInterest
          = some l → l ≠ [])
    ∧ ((data.pointsOfInterest = none ∨ data.pointsOfInterest = some []) →
        (assembleMunicipality name url data imageUrl flagUrl).pointsOfInterest
          = none) := by
  refine ⟨rfl, rfl, ?_, ?_, ?_, ?_, ?_, ?_, ?_, ?_⟩
  · intro hb; simp [assembleMunicipality, hb, truthyStr]
  · intro s hb hne; simp [assembleMunicipality, hb, truthyStr, hne]
  · simp [assembleMunicipality, isSome_if_truthy]
  · simp [assembleMunicipality, isSome_if_truthy]
  · simp [assembleMunicipality, isSome_if_truthy]
  · simp [assembleMunicipality, isSome_if_truthy]
  · intro l hl
    rcases hd : data.pointsOfInterest with _ | l'
    · simp [assembleMunicipality, hd] at hl
    · simp only [assembleMunicipality, hd] at hl
      by_cases hlen : l'.length > 0
      · rw [if_pos hlen] at hl
        cases hl
        exact List.length_pos.mp hlen
      · rw [if_neg hlen] at hl; exact absurd hl (by simp)
  · intro hp
    rcases hp with hp | hp <;> simp [assembleMunicipality, hp]

/-- Witness for C10 at a concrete extraction result. -/
theorem record_field_presence_witness :
    (assembleMunicipality "A" "u"
        ⟨none, none, none, none, none, some ["X"]⟩ none none).bfsId = ""
    ∧ (["X"] : List String) ≠ [] := by
  obtain ⟨-, -, h3, -, -, -, -, -, h9, -⟩ :=
    record_field_presence "A" "u" ⟨none, none, none, none, none, some ["X"]⟩
      none none
  exact ⟨h3 rfl, h9 ["X"] rfl⟩

/-- C5: every failure mode of the Detail Extractor — fetch failure,
absent infobox, AI call failure, missing candidates/content/parts/text,
no JSON-object-shaped substring, JSON parse failure — returns null for
the whole record, and a thrown error in the inner body always becomes a
null result rather than propagating. -/
theorem extractor_all_or_nothing
    (parseJson : String → Except String ExtractedData)
    (getHighRes : String → Option String) (fsExists : String → Bool)
    (imgOracle : Nat → AttemptOutcome) (url name : String) :
    (∀ e ai, extractMunicipalityData (.error e) ai parseJson getHighRes
        fsExists imgOracle url name = none)
    ∧ (∀ paras ai, extractMunicipalityData (.ok ⟨none, paras⟩) ai parseJson
        getHighRes fsExists imgOracle url name = none)
    ∧ (∀ page e, extractMunicipalityData (.ok page) (fun _ => .error e)
        parseJson getHighRes fsExists imgOracle url name = none)
    ∧ (∀ ib paras, extractMunicipalityData (.ok ⟨some ib, paras⟩)
        (fun _ => .ok ⟨none⟩) parseJson getHighRes fsExists imgOracle
        url name = none)
    ∧ (∀ ib paras, extractMunicipalityData (.ok ⟨some ib, paras⟩)
        (fun _ => .ok ⟨some []⟩) parseJson getHighRes fsExists imgOracle
        url name = none)
    ∧ (∀ ib paras, extractMunicipalityData (.ok ⟨some ib, paras⟩)
        (fun _ => .ok ⟨some [⟨none⟩]⟩) parseJson getHighRes fsExists imgOracle
        url name = none)
    ∧ (∀ ib paras, extractMunicipalityData (.ok ⟨some ib, paras⟩)
        (fun _ => .ok ⟨some [⟨some ⟨none⟩⟩]⟩) parseJson getHighRes fsExists
        imgOracle url name = none)
    ∧ (∀ ib paras, extractMunicipalityData (.ok ⟨some ib, paras⟩)
        (fun _ => .ok ⟨some [⟨some ⟨some []⟩⟩]⟩) parseJson getHighRes fsExists
        imgOracle url name = none)
    ∧ (∀ ib paras (parts : List AiPart),
        (∀ p ∈ parts, truthyStr p.text = false) →
        extractMunicipalityData (.ok ⟨some ib, paras⟩)
          (fun _ => .ok ⟨some [⟨some ⟨some parts⟩⟩]⟩) parseJson getHighRes
          fsExists imgOracle url name = none)
    ∧ (∀ ib paras t, jsonMatch t = none →
        extractMunicipalityData (.ok ⟨some ib, paras⟩)
          (fun _ => .ok ⟨some [⟨some ⟨some [⟨some t⟩]⟩⟩]⟩) parseJson getHighRes
          fsExists imgOracle url name = none)
    ∧ (∀ ib paras t e, extractMunicipalityData (.ok ⟨some ib, paras⟩)
        (fun _ => .ok ⟨some [⟨some ⟨some [⟨some t⟩]⟩⟩]⟩) (fun _ => .error e)
        getHighRes fsExists imgOracle url name = none)
    ∧ (∀ fetch ai e,
        extractInner fetch ai parseJson getHighRes fsExists imgOracle url name
          = .error e →
        extractMunicipalityData fetch ai parseJson getHighRes fsExists
          imgOracle url name = none) := by
  refine ⟨fun e ai => rfl, fun paras ai => rfl, ?_, fun ib paras => rfl,
    fun ib paras => rfl, fun ib paras => rfl, fun ib paras => rfl,
    fun ib paras => rfl, ?_, ?_, ?_, ?_⟩
  · intro page e
    rcases page with ⟨_ | ib, paras⟩ <;> rfl
  · intro ib paras parts hall
    cases parts with
    | nil => rfl
    | cons p ps =>
      have hfind : (p :: ps).find? (fun q => truthyStr q.text) = none :=
        List.find?_eq_none.mpr (fun x hx => by simp [hall x hx])
      simp [extractMunicipalityData, extractInner, hfind, jsonMatch]
  · intro ib paras t h
    by_cases ht : t = ""
    · subst ht
      simp [extractMunicipalityData, extractInner, truthyStr, jsonMatch]
    · have htr : truthyStr (some t) = true := by simp [truthyStr, ht]
      simp [extractMunicipalityData, extractInner, htr, h]
  · intro ib paras t e
    by_cases ht : t = ""
    · subst ht
      simp [extractMunicipalityData, extractInner, truthyStr, jsonMatch]
    · have htr : truthyStr (some t) = true := by simp [truthyStr, ht]
      cases hj : jsonMatch t with
      | none => simp [extractMunicipalityData, extractInner, htr, hj]
      | some jm => simp [extractMunicipalityData, extractInner, htr, hj]
  · intro fetch ai e h
    unfold extractMunicipalityData
    rw [h]

/-- Witness for C5: the no-JSON-substring failure mode at a concrete
response text. -/
theorem extractor_all_or_nothing_witness :
    jsonMatch "hello" = none
    ∧ extractMunicipalityData (.ok ⟨some "ib", []⟩)
        (fun _ => .ok ⟨some [⟨some ⟨some [⟨some "hello"⟩]⟩⟩]⟩)
        (fun _ => .ok ⟨none, none, none, none, none, none⟩) (fun _ => none)
        (fun _ => false) (fun _ => AttemptOutcome.ok none) "u" "n" = none := by
  obtain ⟨-, -, -, -, -, -, -, -, -, h10, -, -⟩ :=
    extractor_all_or_nothing
      (fun _ => Except.ok ⟨none, none, none, none, none, none⟩) (fun _ => none)
      (fun _ => false) (fun _ => AttemptOutcome.ok none) "u" "n"
  exact ⟨by decide, h10 "ib" [] "hello" (by decide)⟩

theorem crawlLoopFuel_nil (e : String × String → Option Municipality)
    (fuel : Nat) (acc : List Municipality) :
    crawlLoopFuel e fuel acc [] = (acc, []) := by
  cases fuel <;> rfl

theorem chunksOfFuel_nil (n : Nat) (fuel : Nat) :
    chunksOfFuel n fuel ([] : List α) = [] := by
  cases fuel <;> rfl

theorem crawlLoopFuel_fst (e : String × String → Option Municipality) :
    ∀ (fuel : Nat) (acc : List Municipality) (l : List (String × String)),
      l.length ≤ fuel →
      (crawlLoopFuel e fuel acc l).1 = acc ++ l.filterMap e := by
  intro fuel
  induction fuel with
  | zero =>
    intro acc l hl
    have hnil : l = [] := List.eq_nil_of_length_eq_zero (Nat.le_zero.mp hl)
    subst hnil; simp [crawlLoopFuel]
  | succ f ih =>
    intro acc l hl
    cases l with
    | nil => simp [crawlLoopFuel]
    | cons p r =>
      have hrest : ((p :: r).drop BATCH_SIZE).length ≤ f := by
        simp only [List.length_drop, List.length_cons, BATCH_SIZE]
        simp only [List.length_cons] at hl
        omega
      show (crawlLoopFuel e f
          (acc ++ (((p :: r).take BATCH_SIZE).map e).filterMap id)
          ((p :: r).drop BATCH_SIZE)).1 = acc ++ (p :: r).filterMap e
      rw [ih _ _ hrest]
      conv_rhs => rw [← List.take_append_drop BATCH_SIZE (p :: r)]
      rw [List.filterMap_append, List.filterMap_map, Function.id_comp,
        List.append_assoc]

theorem crawlLoopFuel_batches (e : String × String → Option Municipality) :
    ∀ (fuel : Nat) (acc : List Municipality) (l : List (String × String)),
      (crawlLoopFuel e fuel acc l).2.filterMap CrawlEvent.batchOf
        = chunksOfFuel BATCH_SIZE fuel l := by
  intro fuel
  induction fuel with
  | zero => intro acc l; cases l <;> rfl
  | succ f ih =>
    intro acc l
    cases l with
    | nil => rfl
    | cons p r =>
      show (CrawlEvent.batch ((p :: r).take BATCH_SIZE) ::
          CrawlEvent.write (acc ++ (((p :: r).take BATCH_SIZE).map e).filterMap id) ::
          (if ((p :: r).drop BATCH_SIZE).isEmpty then
              (crawlLoopFuel e f _ ((p :: r).drop BATCH_SIZE)).2
            else CrawlEvent.sleep 1000 ::
              (crawlLoopFuel e f _ ((p :: r).drop BATCH_SIZE)).2)).filterMap
            CrawlEvent.batchOf
        = (p :: r).take BATCH_SIZE :: chunksOfFuel BATCH_SIZE f ((p :: r).drop BATCH_SIZE)
      cases hre : ((p :: r).drop BATCH_SIZE).isEmpty <;>
        simp [CrawlEvent.batchOf, List.filterMap_cons, ih]

theorem crawlLoopFuel_writes (e : String × String → Option Municipality) :
    ∀ (fuel : Nat) (acc : List Municipality) (l : List (String × String)),
      ((crawlLoopFuel e fuel acc l).2.filter CrawlEvent.isWrite).length
        = (chunksOfFuel BATCH_SIZE fuel l).length := by
  intro fuel
  induction fuel with
  | zero => intro acc l; cases l <;> rfl
  | succ f ih =>
    intro acc l
    cases l with
    | nil => rfl
    | cons p r =>
      show ((CrawlEvent.batch ((p :: r).take BATCH_SIZE) ::
          CrawlEvent.write (acc ++ (((p :: r).take BATCH_SIZE).map e).filterMap id) ::
          (if ((p :: r).drop BATCH_SIZE).isEmpty then
              (crawlLoopFuel e f _ ((p :: r).drop BATCH_SIZE)).2
            else CrawlEvent.sleep 1000 ::
              (crawlLoopFuel e f _ ((p :: r).drop BATCH_SIZE)).2)).filter
            CrawlEvent.isWrite).length
        = ((p :: r).take BATCH_SIZE :: chunksOfFuel BATCH_SIZE f ((p :: r).drop BATCH_SIZE)).length
      cases hre : ((p :: r).drop BATCH_SIZE).isEmpty <;>
        simp [CrawlEvent.isWrite, List.filter_cons, ih]

theorem chunksOfFuel_ne_nil (n : Nat) (f : Nat) (p : α) (r : List α)
    (hf : (p :: r).length ≤ f) :
    chunksOfFuel n f (p :: r) ≠ [] := by
  cases f with
  | zero => simp at hf
  | succ f => exact fun h => List.cons_ne_nil _ _ h

theorem crawlLoopFuel_sleeps (e : String × String → Option Municipality) :
    ∀ (fuel : Nat) (acc : List Municipality) (l : List (String × String)),
      l.length ≤ fuel →
      ((crawlLoopFuel e fuel acc l).2.filter CrawlEvent.isSleep).length
        = (chunksOfFuel BATCH_SIZE fuel l).length - 1 := by
  intro fuel
  induction fuel with
  | zero =>
    intro acc l hl
    have hnil : l = [] := List.eq_nil_of_length_eq_zero (Nat.le_zero.mp hl)
    subst hnil; rfl
  | succ f ih =>
    intro acc l hl
    cases l with
    | nil => rfl
    | cons p r =>
      have hrest : ((p :: r).drop BATCH_SIZE).length ≤ f := by
        simp only [List.length_drop, List.length_cons, BATCH_SIZE]
        simp only [List.length_cons] at hl
        omega
      show ((CrawlEvent.batch ((p :: r).take BATCH_SIZE) ::
          CrawlEvent.write (acc ++ (((p :: r).take BATCH_SIZE).map e).filterMap id) ::
          (if ((p :: r).drop BATCH_SIZE).isEmpty then
              (crawlLoopFuel e f _ ((p :: r).drop BATCH_SIZE)).2
            else CrawlEvent.sleep 1000 ::
              (crawlLoopFuel e f _ ((p :: r).drop BATCH_SIZE)).2)).filter
            CrawlEvent.isSleep).length
        = ((p :: r).take BATCH_SIZE :: chunksOfFuel BATCH_SIZE f ((p :: r).drop BATCH_SIZE)).length - 1
      cases hre : ((p :: r).drop BATCH_SIZE).isEmpty with
      | true =>
        have hnil : (p :: r).drop BATCH_SIZE = [] := List.isEmpty_iff.mp hre
        simp [CrawlEvent.isSleep, List.filter_cons, hnil, crawlLoopFuel_nil,
          chunksOfFuel_nil]
      | false =>
        have hne : (p :: r).drop BATCH_SIZE ≠ [] := by
          intro hc; rw [hc] at hre; exact absurd hre (by simp)
        obtain ⟨q, s, hqs⟩ := List.exists_cons_of_ne_nil hne
        have hlen1 : 0 < (chunksOfFuel BATCH_SIZE f ((p :: r).drop BATCH_SIZE)).length := by
          rw [hqs]
          cases f with
          | zero => rw [hqs] at hrest; simp at hrest
          | succ f' => simp [chunksOfFuel]
        have hih := ih (acc ++ (((p :: r).take BATCH_SIZE).map e).filterMap id)
          ((p :: r).drop BATCH_SIZE) hrest
        have hfilter : (CrawlEvent.batch ((p :: r).take BATCH_SIZE) ::
            CrawlEvent.write (acc ++ (((p :: r).take BATCH_SIZE).map e).filterMap id) ::
            CrawlEvent.sleep 1000 ::
              (crawlLoopFuel e f
                (acc ++ (((p :: r).take BATCH_SIZE).map e).filterMap id)
                ((p :: r).drop BATCH_SIZE)).2).filter CrawlEvent.isSleep
          = CrawlEvent.sleep 1000 ::
              ((crawlLoopFuel e f
                (acc ++ (((p :: r).take BATCH_SIZE).map e).filterMap id)
                ((p :: r).drop BATCH_SIZE)).2.filter CrawlEvent.isSleep) := by
          simp [CrawlEvent.isSleep, List.filter_cons]
        simp only [Bool.false_eq_true, if_false, hfilter, List.length_cons, hih]
        omega

theorem crawlLoopFuel_sleep_ms (e : String × String → Option Municipality) :
    ∀ (fuel : Nat) (acc : List Municipality) (l : List (String × String)) (ms : Nat),
      CrawlEvent.sleep ms ∈ (crawlLoopFuel e fuel acc l).2 → ms = 1000 := by
  intro fuel
  induction fuel with
  | zero =>
    intro acc l ms h
    cases l with
    | nil => rw [crawlLoopFuel_nil] at h; simp at h
    | cons p r =>
      rw [show (crawlLoopFuel e 0 acc (p :: r)).2 = [] from rfl] at h
      simp at h
  | succ f ih =>
    intro acc l ms h
    cases l with
    | nil => rw [crawlLoopFuel_nil] at h; simp at h
    | cons p r =>
      have h' : CrawlEvent.sleep ms ∈
          (CrawlEvent.batch ((p :: r).take BATCH_SIZE) ::
            CrawlEvent.write (acc ++ (((p :: r).take BATCH_SIZE).map e).filterMap id) ::
            (if ((p :: r).drop BATCH_SIZE).isEmpty then
                (crawlLoopFuel e f _ ((p :: r).drop BATCH_SIZE)).2
              else CrawlEvent.sleep 1000 ::
                (crawlLoopFuel e f _ ((p :: r).drop BATCH_SIZE)).2)) := h
      simp only [List.mem_cons] at h'
      rcases h' with h' | h' | h'
      · exact absurd h' (by simp)
      · exact absurd h' (by simp)
      · cases hre : ((p :: r).drop BATCH_SIZE).isEmpty with
        | true => rw [hre, if_pos rfl] at h'; exact ih _ _ _ h'
        | false =>
          rw [hre, if_neg Bool.false_ne_true] at h'
          simp only [List.mem_cons] at h'
          rcases h' with h' | h'
          · cases h'; rfl
          · exact ih _ _ _ h'

theorem crawlLoopFuel_write_extends (e : String × String → Option Municipality) :
    ∀ (fuel : Nat) (acc : List Municipality) (l : List (String × String)),
      l.length ≤ fuel →
      ∀ s, CrawlEvent.write s ∈ (crawlLoopFuel e fuel acc l).2 →
        s <+: (crawlLoopFuel e fuel acc l).1 := by
  intro fuel
  induction fuel with
  | zero =>
    intro acc l hl s h
    have hnil : l = [] := List.eq_nil_of_length_eq_zero (Nat.le_zero.mp hl)
    subst hnil
    rw [crawlLoopFuel_nil] at h
    simp at h
  | succ f ih =>
    intro acc l hl s h
    cases l with
    | nil => rw [crawlLoopFuel_nil] at h; simp at h
    | cons p r =>
      have hrest : ((p :: r).drop BATCH_SIZE).length ≤ f := by
        simp only [List.length_drop, List.length_cons, BATCH_SIZE]
        simp only [List.length_cons] at hl
        omega
      have hfst : (crawlLoopFuel e (f + 1) acc (p :: r)).1
          = (crawlLoopFuel e f
              (acc ++ (((p :: r).take BATCH_SIZE).map e).filterMap id)
              ((p :: r).drop BATCH_SIZE)).1 := rfl
      have h' : CrawlEvent.write s ∈
          (CrawlEvent.batch ((p :: r).take BATCH_SIZE) ::
            CrawlEvent.write (acc ++ (((p :: r).take BATCH_SIZE).map e).filterMap id) ::
            (if ((p :: r).drop BATCH_SIZE).isEmpty then
                (crawlLoopFuel e f _ ((p :: r).drop BATCH_SIZE)).2
              else CrawlEvent.sleep 1000 ::
                (crawlLoopFuel e f _ ((p :: r).drop BATCH_SIZE)).2)) := h
      simp only [List.mem_cons] at h'
      rcases h' with h' | h' | h'
      · exact absurd h' (by simp)
      · have hs : s = acc ++ (((p :: r).take BATCH_SIZE).map e).filterMap id := by
          cases h'; rfl
        rw [hfst, crawlLoopFuel_fst e f _ _ hrest, hs]
        exact List.prefix_append _ _
      · have hmem : CrawlEvent.write s ∈
            (crawlLoopFuel e f
              (acc ++ (((p :: r).take BATCH_SIZE).map e).filterMap id)
              ((p :: r).drop BATCH_SIZE)).2 := by
          cases hre : ((p :: r).drop BATCH_SIZE).isEmpty with
          | true => rw [hre, if_pos rfl] at h'; exact h'
          | false =>
            rw [hre, if_neg Bool.false_ne_true] at h'
            simp only [List.mem_cons] at h'
            rcases h' with h' | h'
            · exact absurd h' (by simp)
            · exact h'
        rw [hfst]
        exact ih _ _ hrest s hmem

theorem chunksOfFuel_flatten (n : Nat) (hn : 0 < n) :
    ∀ (fuel : Nat) (l : List α), l.length ≤ fuel →
      (chunksOfFuel n fuel l).flatten = l := by
  intro fuel
  induction fuel with
  | zero =>
    intro l hl
    have hnil : l = [] := List.eq_nil_of_length_eq_zero (Nat.le_zero.mp hl)
    subst hnil; rfl
  | succ f ih =>
    intro l hl
    cases l with
    | nil => rfl
    | cons p r =>
      have hrest : ((p :: r).drop n).length ≤ f := by
        simp only [List.length_drop, List.length_cons]
        simp only [List.length_cons] at hl
        omega
      show ((p :: r).take n :: chunksOfFuel n f ((p :: r).drop n)).flatten = p :: r
      rw [List.flatten_cons, ih _ hrest, List.take_append_drop]

/-- C1: for every non-empty pending list the batch loop partitions it
into fixed-size chunks of 5, applies the extractor to every member of
each chunk, appends exactly the non-null results in chunk output order,
writes the output file once after every chunk, and sleeps 1000 ms
between chunks but not after the last; for a 6-entry pending list it
issues exactly 2 batches of sizes 5 and 1, writes twice and sleeps
once. -/
theorem batch_loop_behaviour (extract : String × String → Option Municipality)
    (acc : List Municipality) (pending : List (String × String))
    (h : pending ≠ []) :
    (crawlLoop extract acc pending).2.filterMap CrawlEvent.batchOf
        = chunksOf BATCH_SIZE pending
    ∧ (crawlLoop extract acc pending).1 = acc ++ pending.filterMap extract
    ∧ ((crawlLoop extract acc pending).2.filter CrawlEvent.isWrite).length
        = (chunksOf BATCH_SIZE pending).length
    ∧ ((crawlLoop extract acc pending).2.filter CrawlEvent.isSleep).length
        = (chunksOf BATCH_SIZE pending).length - 1
    ∧ (∀ ms, CrawlEvent.sleep ms ∈ (crawlLoop extract acc pending).2 →
        ms = 1000)
    ∧ (∀ e1 e2 e3 e4 e5 e6 : String × String,
        ((crawlLoop extract acc [e1, e2, e3, e4, e5, e6]).2.filterMap
            CrawlEvent.batchOf).map List.length = [5, 1]
        ∧ ((crawlLoop extract acc [e1, e2, e3, e4, e5, e6]).2.filter
              CrawlEvent.isWrite).length = 2
        ∧ ((crawlLoop extract acc [e1, e2, e3, e4, e5, e6]).2.filter
              CrawlEvent.isSleep).length = 1) :=
  ⟨crawlLoopFuel_batches extract pending.length acc pending,
   crawlLoopFuel_fst extract pending.length acc pending (Nat.le_refl _),
   crawlLoopFuel_writes extract pending.length acc pending,
   crawlLoopFuel_sleeps extract pending.length acc pending (Nat.le_refl _),
   fun ms hm => crawlLoopFuel_sleep_ms extract pending.length acc pending ms hm,
   fun _ _ _ _ _ _ => ⟨rfl, rfl, rfl⟩⟩

/-- Witness for C1 at a concrete 6-entry pending list. -/
theorem batch_loop_behaviour_witness :
    ([("A", "a"), ("B", "b"), ("C", "c"), ("D", "d"), ("E", "e"), ("F", "f")]
        : List (String × String)) ≠ []
    ∧ ((crawlLoop (fun _ => none) []
          [("A", "a"), ("B", "b"), ("C", "c"), ("D", "d"), ("E", "e"),
            ("F", "f")]).2.filter CrawlEvent.isWrite).length
        = (chunksOf BATCH_SIZE
            [("A", "a"), ("B", "b"), ("C", "c"), ("D", "d"), ("E", "e"),
              ("F", "f")]).length :=
  ⟨by decide,
    (batch_loop_behaviour (fun _ => none) []
      [("A", "a"), ("B", "b"), ("C", "c"), ("D", "d"), ("E", "e"), ("F", "f")]
      (by decide)).2.2.1⟩

/-- C9 counterexample: when the discovered list contains the name "A"
twice (and the prior file is empty), the second batch of the same run
processes the name "A" although the first batch already appended a
record named "A" — the run-wide filter is computed once against the
prior file only. -/
theorem later_batch_revisits_name :
    ((crawlMunicipalities
        (fun p => some ⟨p.1, "", p.2, none, none, none, none, none, none⟩)
        none
        [("A", "u1"), ("B", "u2"), ("C", "u3"), ("D", "u4"), ("E", "u5"),
          ("A", "u6")]).2.filterMap CrawlEvent.batchOf).getD 1 []
      = [("A", "u6")]
    ∧ "A" ∈ (((crawlMunicipalities
        (fun p => some ⟨p.1, "", p.2, none, none, none, none, none, none⟩)
        none
        [("A", "u1"), ("B", "u2"), ("C", "u3"), ("D", "u4"), ("E", "u5"),
          ("A", "u6")]).2.filterMap CrawlEvent.writeOf).getD 0 []).map
        Municipality.name := by
  decide

/-- C9 amended: records are immutable once appended — every write
snapshot is a prefix of the final result sequence — and the batches of
a run concatenate to exactly the pending list, so each pending entry is
processed by exactly one batch; consequently, when the pending names
are pairwise distinct, no later batch processes a name already appended
by an earlier batch.  When the discovered list repeats a name, both
occurrences are processed (see the counterexample). -/
theorem crawl_run_invariants (extract : String × String → Option Municipality)
    (acc : List Municipality) (pending : List (String × String)) :
    (∀ s, CrawlEvent.write s ∈ (crawlLoop extract acc pending).2 →
        s <+: (crawlLoop extract acc pending).1)
    ∧ ((crawlLoop extract acc pending).2.filterMap CrawlEvent.batchOf).flatten
        = pending
    ∧ ((pending.map Prod.fst).Nodup →
        ((crawlLoop extract acc pending).2.filterMap
            CrawlEvent.batchOf).Pairwise
          (fun b1 b2 => ∀ p ∈ b1, ∀ q ∈ b2, p.1 ≠ q.1)) := by
  have hbatches : (crawlLoop extract acc pending).2.filterMap CrawlEvent.batchOf
      = chunksOfFuel BATCH_SIZE pending.length pending :=
    crawlLoopFuel_batches extract pending.length acc pending
  have hflatten : (chunksOfFuel BATCH_SIZE pending.length pending).flatten
      = pending :=
    chunksOfFuel_flatten BATCH_SIZE (by decide) pending.length pending
      (Nat.le_refl _)
  refine ⟨?_, ?_, ?_⟩
  · intro s hs
    exact crawlLoopFuel_write_extends extract pending.length acc pending
      (Nat.le_refl _) s hs
  · rw [hbatches]; exact hflatten
  · intro hnd
    have hnd' : pending.Pairwise (fun a b => a.1 ≠ b.1) :=
      List.pairwise_map.mp hnd
    have hp : List.Pairwise (fun a b => a.1 ≠ b.1)
        ((chunksOfFuel BATCH_SIZE pending.length pending).flatten) := by
      rw [hflatten]; exact hnd'
    rw [hbatches]
    exact (List.pairwise_flatten.mp hp).2

/-- Witness for C9 amended at a concrete duplicate-free pending list. -/
theorem crawl_run_invariants_witness :
    (([("A", "u1"), ("B", "u2")] : List (String × String)).map Prod.fst).Nodup
    ∧ ((crawlLoop (fun _ => none) [] [("A", "u1"), ("B", "u2")]).2.filterMap
          CrawlEvent.batchOf).Pairwise
        (fun b1 b2 => ∀ p ∈ b1, ∀ q ∈ b2, p.1 ≠ q.1) :=
  ⟨by decide,
    (crawl_run_invariants (fun _ => none) [] [("A", "u1"), ("B", "u2")]).2.2
      (by decide)⟩
